import Mathlib

/-!
Verification of the urify URL dissection and filtering tool.

The Python sources (src/urify) are shallowly embedded below.  Pure string
manipulation from the standard library (urllib.parse, pathlib, str methods)
is modelled over lists of characters; fallible Python code is modelled with
an Except monad over an explicit error type.  The external public-suffix
decomposition dependency is modelled from its interface description in the
specification with an abridged suffix list.
-/

/-- Python exception kinds reachable from the embedded code.  UrlError is the
custom exception of schema.py and carries the original unparsed string. -/
inductive PyErr where
  | typeError (msg : String)
  | valueError (msg : String)
  | urlError (original : String)
  | attributeError (msg : String)
deriving DecidableEq, Repr

/-! ### Character and string helpers (models of Python str methods) -/

/-- Python s.split(c) for a one-character separator: keeps empty pieces,
and the empty string yields a single empty piece. -/
def splitChar (c : Char) : List Char → List (List Char)
  | [] => [[]]
  | x :: xs =>
    let r := splitChar c xs
    if x = c then [] :: r
    else
      match r with
      | [] => [[x]]
      | h :: t => (x :: h) :: t

/-- String-level wrapper of splitChar. -/
def pySplitStr (c : Char) (s : String) : List String :=
  (splitChar c s.data).map String.mk

/-- Split a character list at the first occurrence of c, dropping the
separator; if c is absent the whole list is the first component.  Models
the effect of the Python idiom `if c in u: a, b = u.split(c, 1)`. -/
def splitFirst (c : Char) (l : List Char) : List Char × List Char :=
  let pre := l.takeWhile (fun x => decide (x ≠ c))
  let post := l.dropWhile (fun x => decide (x ≠ c))
  match post with
  | [] => (pre, [])
  | _ :: t => (pre, t)

/-- Python u.partition(c): (before, found flag, after) at the first c. -/
def pyPartition3 (c : Char) (l : List Char) : List Char × Bool × List Char :=
  let pre := l.takeWhile (fun x => decide (x ≠ c))
  let post := l.dropWhile (fun x => decide (x ≠ c))
  match post with
  | [] => (pre, false, [])
  | _ :: t => (pre, true, t)

/-- The piece after the last occurrence of c (the whole list when c is
absent); models Python u.rpartition(c)[-1]. -/
def afterLast (c : Char) (l : List Char) : List Char :=
  (l.reverse.takeWhile (fun x => decide (x ≠ c))).reverse

/-- The piece before the last occurrence of c (empty when c is absent);
models Python u.rpartition(c)[0]. -/
def beforeLast (c : Char) (l : List Char) : List Char :=
  ((l.reverse.dropWhile (fun x => decide (x ≠ c))).drop 1).reverse

/-- First index where sub occurs in l, as an Option. -/
def findSub : List Char → List Char → Option Nat
  | l, sub =>
    if sub.isPrefixOf l then some 0
    else
      match l with
      | [] => none
      | _ :: t => (findSub t sub).map (· + 1)

/-- Python s.find(sub): the first index of sub in s, or -1. -/
def pyFind (s sub : String) : Int :=
  match findSub s.data sub.data with
  | some i => (i : Int)
  | none => -1

/-- Whether sub occurs in s; models Python `sub in s`. -/
def containsSubstr (s sub : String) : Bool :=
  (findSub s.data sub.data).isSome

/-- Clamp a (possibly negative) Python slice index to a list offset. -/
def sliceIdx (len : Nat) (i : Int) : Nat :=
  if 0 ≤ i then min i.toNat len else len - min (-i).toNat len

/-- Python s[:i] with a possibly negative i. -/
def pySliceTo (s : String) (i : Int) : String :=
  String.mk (s.data.take (sliceIdx s.data.length i))

/-- Python s[i:] with a possibly negative i. -/
def pySliceFrom (s : String) (i : Int) : String :=
  String.mk (s.data.drop (sliceIdx s.data.length i))

/-- Python `a or b` on strings: b when a is empty. -/
def pyOr (a b : String) : String :=
  if a = "" then b else a

/-- Numeric value of a digit string; callers check the digits first. -/
def digitsToNat (l : List Char) : Nat :=
  l.foldl (fun n c => 10 * n + (c.toNat - '0'.toNat)) 0

/-- Join labels with dots; models ".".join(labels). -/
def joinDots : List String → String
  | [] => ""
  | [x] => x
  | x :: xs => x ++ "." ++ joinDots xs

/-! ### Schema (src/urify/core/schema.py) -/

/-- Interface defining query components (schema.QueryObject). -/
structure QueryObject where
  key : String
  value : String
deriving DecidableEq, Repr

/-- Interface defining various components of a Url (schema.UrlObject); the
port is stored as a string per the stringify validator. -/
structure UrlObject where
  scheme : String
  username : String
  password : String
  subdomain : String
  domain : String
  tld : String
  port : String
  path : String
  raw_query : String
  query : List QueryObject
  fragment : String
  apex : String
  fqdn : String
deriving DecidableEq, Repr

/-- Python ext.strip(m.) restricted to the dot character: drop leading dots. -/
def rstripDots : List Char → List Char
  | [] => []
  | c :: cs =>
    match rstripDots cs with
    | [] => if c = '.' then [] else [c]
    | r => c :: r

/-- Python ext.strip with dots: removes leading and trailing dot characters. -/
def stripDots (s : String) : String :=
  String.mk (rstripDots (s.data.dropWhile (fun c => decide (c = '.'))))

/-- One entry of the extensions set comprehension in UrlFilters.validate_fields:
the Python expression prefixing a single dot to ext.strip of dots. -/
def normalizeExt (ext : String) : String :=
  String.mk ('.' :: (stripDots ext).data)

/-- The extensions normalization of UrlFilters.validate_fields: a set built
from the normalized entries (modelled as a deduplicated list). -/
def validateExtensions (exts : List String) : List String :=
  (exts.map normalizeExt).dedup

/-- Number of leading dot characters of a string. -/
def leadingDots (s : String) : Nat :=
  (s.data.takeWhile (fun c => decide (c = '.'))).length

/-- Filter configuration record (schema.UrlFilters); each filter collection
is a set of strings, modelled as a list with membership up to equality; an
empty list denotes an absent filter (Python None or empty set). -/
structure UrlFilters where
  schemes : List String := []
  subdomains : List String := []
  domains : List String := []
  tlds : List String := []
  ports : List String := []
  extensions : List String := []
  apexes : List String := []
  fqdns : List String := []
  as_denylist : Bool := false
deriving DecidableEq, Repr

/-! ### Query decomposition (processor.querydissect) -/

/-- Model of urllib.parse.unquote_plus restricted to ASCII percent escapes
(the only kind the repository exercises): a literal plus becomes a space,
then every valid percent escape with two hex digits decodes to the byte it
denotes (taken as a character); invalid escapes stay literal. -/
def hexVal (c : Char) : Option Nat :=
  if '0' ≤ c ∧ c ≤ '9' then some (c.toNat - '0'.toNat)
  else if 'a' ≤ c ∧ c ≤ 'f' then some (c.toNat - 'a'.toNat + 10)
  else if 'A' ≤ c ∧ c ≤ 'F' then some (c.toNat - 'A'.toNat + 10)
  else none

def percentDecode : List Char → List Char
  | '%' :: a :: b :: rest =>
    match hexVal a, hexVal b with
    | some x, some y => Char.ofNat (16 * x + y) :: percentDecode rest
    | _, _ => '%' :: percentDecode (a :: b :: rest)
  | c :: rest => c :: percentDecode rest
  | [] => []

def unquote_plus (s : String) : String :=
  String.mk (percentDecode (s.data.map (fun c => if c = '+' then ' ' else c)))

/-- The two-parameter lambda of querydissect applied to the unpacked pieces
of a segment: any number of pieces other than two is a Python TypeError. -/
def kvify : List String → Except PyErr QueryObject
  | [k, v] => .ok (QueryObject.mk k v)
  | l =>
    .error (.typeError
      (if l.length < 2 then "kvify missing a required positional argument"
       else "kvify takes 2 positional arguments"))

/-- Effectful map over a list, stopping at the first error; models Python
building a list from a generator of fallible calls. -/
def mapME (f : α → Except PyErr β) : List α → Except PyErr (List β)
  | [] => .ok []
  | a :: as =>
    match f a with
    | .error e => .error e
    | .ok b =>
      match mapME f as with
      | .error e => .error e
      | .ok bs => .ok (b :: bs)

deriving instance DecidableEq for Except

/-- processor.querydissect: dissects a raw query into a key-value list.  An
empty query yields the empty list; otherwise each ampersand-separated
segment is percent-decoded and split on every equals sign, and the pieces
are passed positionally to the two-parameter constructor lambda. -/
def querydissect (query : String) : Except PyErr (List QueryObject) :=
  if query = "" then .ok []
  else mapME (fun q => kvify (pySplitStr '=' (unquote_plus q))) (pySplitStr '&' query)

/-! ### URL parsing (model of urllib.parse.urlparse, Python 3.11 semantics,
restricted to the features processor.py exercises: scheme recognition,
netloc/path/query/fragment splitting, params stripping, userinfo and port
extraction; bracketed IPv6 hosts are checked only for bracket mismatch). -/

/-- The parse record: the fields of a urllib ParseResult that urldissect
reads, with params already removed from the path as urlparse does. -/
structure PyParsed where
  scheme : String
  netloc : String
  path : String
  query : String
  fragment : String
deriving DecidableEq, Repr

def isSchemeChar (c : Char) : Bool :=
  c.isAlphanum || c = '+' || c = '-' || c = '.'

/-- Split a valid scheme (first char a letter, all chars scheme characters,
first colon present past position zero) and lowercase it; otherwise the
input is unchanged with an empty scheme. -/
def splitScheme (l : List Char) : List Char × List Char :=
  let pre := l.takeWhile (fun x => decide (x ≠ ':'))
  let post := l.dropWhile (fun x => decide (x ≠ ':'))
  match post with
  | [] => ([], l)
  | _ :: after =>
    match pre with
    | [] => ([], l)
    | h :: t =>
      if h.isAlpha ∧ (h :: t).all isSchemeChar then
        ((h :: t).map Char.toLower, after)
      else ([], l)

/-- Consume the network location when the remainder starts with two slashes:
everything up to the first slash, question mark or hash sign.  Mismatched
square brackets raise ValueError as in urllib. -/
def splitNetlocChars (l : List Char) : Except PyErr (List Char × List Char) :=
  match l with
  | a :: b :: rest =>
    if a = '/' ∧ b = '/' then
      let nl := rest.takeWhile (fun c => decide (c ≠ '/') && decide (c ≠ '?') && decide (c ≠ '#'))
      let r := rest.dropWhile (fun c => decide (c ≠ '/') && decide (c ≠ '?') && decide (c ≠ '#'))
      if (nl.any (fun c => decide (c = '[')) && !nl.any (fun c => decide (c = ']'))) ||
         (nl.any (fun c => decide (c = ']')) && !nl.any (fun c => decide (c = '['))) then
        .error (.valueError "Invalid IPv6 URL")
      else .ok (nl, r)
    else .ok ([], l)
  | _ => .ok ([], l)

/-- Schemes for which urlparse separates params from the path. -/
def usesParams : List String :=
  ["", "ftp", "hdl", "prospero", "http", "imap", "https", "shttp", "rtsp",
   "rtspu", "sip", "sips", "mms", "sftp", "tel"]

def lastIdxOf (c : Char) (l : List Char) : Option Nat :=
  (l.reverse.findIdx? (fun x => decide (x = c))).map (fun j => l.length - 1 - j)

def findIdxFrom (c : Char) (l : List Char) (start : Nat) : Option Nat :=
  ((l.drop start).findIdx? (fun x => decide (x = c))).map (· + start)

/-- urllib _splitparams on the path, returning the path without params:
split at the first semicolon after the last slash (or anywhere when the
path has no slash); the caller guarantees a semicolon is present. -/
def stripParams (p : List Char) : List Char :=
  if p.any (fun c => decide (c = '/')) then
    match findIdxFrom ';' p ((lastIdxOf '/' p).getD 0) with
    | none => p
    | some i => p.take i
  else p.take ((p.findIdx? (fun x => decide (x = ';'))).getD p.length)

/-- Model of urllib.parse.urlparse: removes tab and newline characters,
splits scheme, netloc, fragment, query, and strips params from the path
for the schemes that use them. -/
def pyUrlparse (u : String) : Except PyErr PyParsed :=
  let l := u.data.filter (fun c => decide (c ≠ '\t') && decide (c ≠ '\n') && decide (c ≠ '\r'))
  let sp := splitScheme l
  let scheme := sp.1
  match splitNetlocChars sp.2 with
  | .error e => .error e
  | .ok (netloc, rest) =>
    let bf := splitFirst '#' rest
    let pq := splitFirst '?' bf.1
    let path :=
      if (usesParams.any (fun s => decide (s = String.mk scheme))) ∧
         pq.1.any (fun c => decide (c = ';')) then
        stripParams pq.1
      else pq.1
    .ok ⟨String.mk scheme, String.mk netloc, String.mk path,
          String.mk pq.2, String.mk bf.2⟩

/-- Raw port text of a netloc per urllib SplitResult._hostinfo: the text
after the first colon that follows the userinfo (and the closing bracket of
a bracketed host); an empty port reads as absent. -/
def rawPortOf (netloc : String) : Option String :=
  let hi := afterLast '@' netloc.data
  let port :=
    match hi with
    | '[' :: rest =>
      let afterBr := (pyPartition3 ']' rest).2.2
      (pyPartition3 ':' afterBr).2.2
    | _ => (pyPartition3 ':' hi).2.2
  if port = [] then none else some (String.mk port)

/-- urllib SplitResult.port: converts the raw port to an integer, raising
ValueError when it is non-numeric or out of range (int parsing is modelled
for plain digit strings, the only kind the repository exercises). -/
def pyPortVal (raw : Option String) : Except PyErr (Option Nat) :=
  match raw with
  | none => .ok none
  | some s =>
    if s.data ≠ [] ∧ s.data.all Char.isDigit then
      let n := digitsToNat s.data
      if n ≤ 65535 then .ok (some n) else .error (.valueError "Port out of range 0-65535")
    else .error (.valueError "Port could not be cast to integer value")

/-- urllib SplitResult.username: the userinfo up to the first colon, when a
commercial at sign is present. -/
def usernameOf (netloc : String) : Option String :=
  if netloc.data.any (fun c => decide (c = '@')) then
    some (String.mk (pyPartition3 ':' (beforeLast '@' netloc.data)).1)
  else none

/-- urllib SplitResult.password: the userinfo after the first colon. -/
def passwordOf (netloc : String) : Option String :=
  if netloc.data.any (fun c => decide (c = '@')) then
    let t := pyPartition3 ':' (beforeLast '@' netloc.data)
    if t.2.1 then some (String.mk t.2.2) else none
  else none

/-! ### Public-suffix decomposition (external dependency tldextract) -/

/-- Result record of the public-suffix decomposition; the ipv4 field holds
the host text when the host is a bare IPv4 literal, else the empty string
(the truthiness tldextract exposes through its ipv4 property). -/
structure ExtractResult where
  subdomain : String
  domain : String
  suffix : String
  ipv4 : String
deriving DecidableEq, Repr

/-- Modelled from the spec: the external public-suffix-list host
decomposition service of section 6 (tldextract, used unmodified).  The
host is taken leniently from the netloc (after userinfo, before the port,
lowercased, trailing root-label dots removed); the public suffix list is
abridged to the suffixes the claims exercise. -/
def publicSuffixes : List String :=
  ["com", "org", "net", "io", "in", "co.in", "gov", "edu", "co.uk", "uk", "onion"]

def extractHost (netloc : String) : List Char :=
  let h := afterLast '@' netloc.data
  let h := h.takeWhile (fun c => decide (c ≠ ':'))
  let h := h.map Char.toLower
  (h.reverse.dropWhile (fun c => decide (c = '.'))).reverse

def looksLikeIPv4 (labels : List String) : Bool :=
  labels.length = 4 &&
  labels.all (fun s =>
    s.data ≠ [] && s.data.length ≤ 3 && s.data.all Char.isDigit &&
    digitsToNat s.data ≤ 255)

/-- Index where the matched public suffix starts in the label list (the
list length when no suffix matches), via longest-suffix match. -/
def suffixIndex (labels : List String) : Nat :=
  labels.length -
    (List.range (labels.length + 1)).foldl
      (fun acc k =>
        if k ≠ 0 ∧ joinDots (labels.drop (labels.length - k)) ∈ publicSuffixes then k
        else acc) 0

/-- Modelled from the spec: tldextract.extract, the sole authority for
subdomain, domain, suffix and IPv4 detection (section 6). -/
def extract (netloc : String) : ExtractResult :=
  let host := String.mk (extractHost netloc)
  let labels := pySplitStr '.' host
  let si := suffixIndex labels
  if si = labels.length ∧ looksLikeIPv4 labels then
    ⟨"", host, "", host⟩
  else
    { subdomain := if 2 ≤ si then joinDots (labels.take (si - 1)) else ""
      domain := if si ≠ 0 then (labels.drop (si - 1)).headD "" else ""
      suffix := joinDots (labels.drop si)
      ipv4 := "" }

/-- tldextract ExtractResult.registered_domain. -/
def ExtractResult.registered_domain (e : ExtractResult) : String :=
  if e.domain ≠ "" ∧ e.suffix ≠ "" then e.domain ++ "." ++ e.suffix else ""

/-- tldextract ExtractResult.fqdn. -/
def ExtractResult.fqdn (e : ExtractResult) : String :=
  if e.domain ≠ "" ∧ e.suffix ≠ "" then
    (if e.subdomain ≠ "" then e.subdomain ++ "." else "") ++ e.domain ++ "." ++ e.suffix
  else ""

/-! ### URL dissection (processor.urldissect) -/

/-- The port expression of urldissect line 56: the Python text of
str(parsed.port) followed by `or` with the empty string.  str of None is
the four-letter text None, which is non-empty, so the fallback never
applies. -/
def strOfPort : Option Nat → String
  | none => "None"
  | some n => toString n

/-- The UrlObject construction of urldissect lines 49-63, reached after the
validity gate: the port is evaluated first (a ValueError propagates), then
the query is dissected (a TypeError propagates), then the record is built. -/
def buildUrlObject (parsed : PyParsed) (scheme path : String)
    (extracted : ExtractResult) : Except PyErr (Option UrlObject) :=
  match pyPortVal (rawPortOf parsed.netloc) with
  | .error e => .error e
  | .ok pv =>
    match querydissect parsed.query with
    | .error e => .error e
    | .ok q =>
      .ok (some
        { scheme := scheme
          username := (usernameOf parsed.netloc).getD ""
          password := (passwordOf parsed.netloc).getD ""
          subdomain := extracted.subdomain
          domain := extracted.domain
          tld := extracted.suffix
          port := pyOr (strOfPort pv) ""
          path := path
          raw_query := parsed.query
          query := q
          fragment := parsed.fragment
          apex := extracted.registered_domain
          fqdn := extracted.fqdn })

/-- processor.urldissect: dissects a Url into components.  Absence is the
Ok-none outcome; UrlError carries the original string; other errors
(ValueError from the port, TypeError from query decomposition) propagate. -/
def urldissect (url : String) (silent : Bool := true) : Except PyErr (Option UrlObject) :=
  let scheme_flag := containsSubstr url "://"
  let u := if scheme_flag then url else "http://" ++ url
  match pyUrlparse u with
  | .error e => .error e
  | .ok parsed =>
    let scheme := if scheme_flag then parsed.scheme else ""
    let np :=
      if parsed.netloc = "" then
        let t := pyPartition3 '/' parsed.path.data
        (String.mk t.1, String.mk ((if t.2.1 then ['/'] else []) ++ t.2.2))
      else (parsed.netloc, parsed.path)
    let extracted := extract np.1
    if extracted.ipv4 = "" ∧ extracted.suffix = "" ∧ scheme = "" then
      if silent then .ok none else .error (.urlError url)
    else buildUrlObject parsed scheme np.2 extracted

/-- The validity-gate condition of urldissect written as a standalone test
of the input: the decomposition found neither an IPv4 literal nor a
recognized suffix, and the parsed scheme is empty. -/
def unparseableGate (url : String) : Bool :=
  let scheme_flag := containsSubstr url "://"
  let u := if scheme_flag then url else "http://" ++ url
  match pyUrlparse u with
  | .error _ => false
  | .ok parsed =>
    let scheme := if scheme_flag then parsed.scheme else ""
    let netloc :=
      if parsed.netloc = "" then String.mk (pyPartition3 '/' parsed.path.data).1
      else parsed.netloc
    let extracted := extract netloc
    if extracted.ipv4 = "" ∧ extracted.suffix = "" ∧ scheme = "" then true else false

/-- Projection of the stored port of a successful dissection. -/
def dissectPort (url : String) : Option String :=
  match urldissect url true with
  | .ok (some o) => some o.port
  | _ => none

/-! ### Filtering (processor.urlfilter) -/

/-- pathlib PurePosixPath name: the last path component, with empty and
single-dot components dropped during parsing. -/
def pathName (p : String) : String :=
  ((splitChar '/' p.data).filter
    (fun c => decide (c ≠ []) && decide (c ≠ ['.']))).foldl (fun _ x => String.mk x) ""

/-- pathlib PurePosixPath.suffix of the path: the text from the last dot of
the final component when that dot is neither leading nor trailing. -/
def pathSuffix (p : String) : String :=
  let name := (pathName p).data
  match lastIdxOf '.' name with
  | none => ""
  | some i => if 0 < i ∧ i < name.length - 1 then String.mk (name.drop i) else ""

/-- Result alternative of urlfilter: the url string, or the dissected
object when return_obj is set. -/
inductive FilterPass where
  | url (u : String)
  | obj (o : UrlObject)
deriving DecidableEq, Repr

/-- processor.urlfilter: dissects the url (in tolerant mode) and evaluates
the filter sets against the corresponding components.  The dissection
result is dereferenced without a check, so an absent dissection is an
AttributeError.  With no applicable filter the url passes; otherwise the
all/any flags (inverted in allow-list mode) decide rejection according to
the absolute flag. -/
def urlfilter (url : String) (filters : UrlFilters)
    (absolute : Bool := false) (return_obj : Bool := false) :
    Except PyErr (Option FilterPass) :=
  match urldissect url true with
  | .error e => .error e
  | .ok none => .error (.attributeError "NoneType object has no attribute scheme")
  | .ok (some url_object) =>
    let filter_mappings : List (List String × String) :=
      [(filters.schemes, url_object.scheme),
       (filters.subdomains, url_object.subdomain),
       (filters.domains, url_object.domain),
       (filters.tlds, url_object.tld),
       (filters.ports, url_object.port),
       (filters.extensions, pathSuffix url_object.path),
       (filters.apexes, url_object.apex),
       (filters.fqdns, url_object.fqdn)]
    let filter_state :=
      filter_mappings.filterMap (fun m =>
        if m.1 = [] then none
        else some (m.1.any (fun x => decide (x = m.2))))
    if filter_state = [] then
      .ok (some (if return_obj then .obj url_object else .url url))
    else
      let all_filters := filter_state.all id
      let any_filter := filter_state.any id
      let fl := if !filters.as_denylist then (!all_filters, !any_filter)
                else (all_filters, any_filter)
      if absolute && fl.1 then .ok none
      else if !absolute && fl.2 then .ok none
      else .ok (some (if return_obj then .obj url_object else .url url))

/-- The deny-list strict filter configuration of the worked example:
extensions php (normalized by UrlFilters construction), domains example. -/
def phpDenyFilters : UrlFilters :=
  { extensions := validateExtensions [".php"], domains := ["example"], as_denylist := true }

/-! ### Entry point (src/urify/__main__.py) -/

/-- The parameter names of processor.urlfilter, in signature order. -/
def urlfilterParamNames : List String :=
  ["url", "filters", "absolute", "return_obj"]

/-- The keyword names the filter command supplies to urlfilter: the partial
application binds filters, strict and return_obj, and the per-line call
adds url. -/
def filterMiddlewareKwargNames : List String :=
  ["filters", "strict", "return_obj", "url"]

/-- Python keyword binding: every supplied keyword must name a parameter. -/
def kwargsBindable (params kwargs : List String) : Bool :=
  kwargs.all (fun k => params.any (fun p => decide (p = k)))

/-- The middleware of the filter command: a call of urlfilter with the
keyword set of filterMiddlewareKwargNames.  Python raises TypeError at the
call when a keyword names no parameter, before the body runs. -/
def filterMiddleware (filters : UrlFilters) (strict : Bool) (url : String) :
    Except PyErr (Option FilterPass) :=
  if kwargsBindable urlfilterParamNames filterMiddlewareKwargNames then
    urlfilter url filters strict true
  else .error (.typeError "urlfilter got an unexpected keyword argument strict")

/-- print_unique: prints the value when it is non-empty and unseen, and
records it; returns the emitted lines and the updated cache. -/
def print_unique (value : String) (cache : List String) :
    List String × List String :=
  if value = "" then ([], cache)
  else if cache.any (fun x => decide (x = value)) then ([], cache)
  else ([value], value :: cache)

/-- A character the regular-expression word boundary counts as a word
character (ASCII scope). -/
def isWordChar (c : Char) : Bool :=
  c.isAlphanum || c = '_'

/-- Substitution of the compiled pattern of the filter command: each
maximal digit run that immediately follows a slash or an equals sign and
ends at a word boundary (a non-word character or the end) is replaced by a
single zero digit.  prev is the preceding character; pending holds the
reversed digits of a candidate run in progress. -/
def subShapeAux (prev : Option Char) (pending : List Char) : List Char → List Char
  | [] => if pending = [] then [] else ['0']
  | c :: cs =>
    if pending ≠ [] then
      if c.isDigit then subShapeAux prev (c :: pending) cs
      else if isWordChar c then pending.reverse ++ c :: subShapeAux (some c) [] cs
      else '0' :: c :: subShapeAux (some c) [] cs
    else if (prev = some '/' ∨ prev = some '=') ∧ c.isDigit then
      subShapeAux prev [c] cs
    else c :: subShapeAux (some c) [] cs

/-- re.sub of the filter command pattern over a string. -/
def pySubShape (s : String) : String :=
  String.mk (subShapeAux none [] s.data)

/-- The normalization the specification sentence describes, with no
word-boundary requirement: every maximal digit run immediately following a
slash or an equals sign becomes a single zero digit. -/
def claimSubAux (prev : Option Char) (pending : Bool) : List Char → List Char
  | [] => if pending then ['0'] else []
  | c :: cs =>
    if pending then
      if c.isDigit then claimSubAux prev true cs
      else '0' :: c :: claimSubAux (some c) false cs
    else if (prev = some '/' ∨ prev = some '=') ∧ c.isDigit then
      claimSubAux prev true cs
    else c :: claimSubAux (some c) false cs

/-- The claimed digit normalization over a string. -/
def claimSub (s : String) : String :=
  String.mk (claimSubAux none false s.data)

/-- The body of the no-dissect loop of the filter command (lines 182-192 of
the entry point), given the url line, the dissected record the middleware
would return, and the dedup cache: locate the path (or, lacking one, the
raw query) in the line; a zero find result takes the print_unique fallback
(the find result -1 for an absent needle is truthy in Python and does
not); otherwise normalize the remainder, suppress on a cached shape, else
print the original line and cache the shape. -/
def filterNoDissectStep (url : String) (url_object : UrlObject)
    (cache : List String) : List String × List String :=
  let separator := pyFind url (pyOr url_object.path url_object.raw_query)
  if separator = 0 then
    print_unique url cache
  else
    let clean_url := pySliceTo url separator ++ pySubShape (pySliceFrom url separator)
    if cache.any (fun x => decide (x = clean_url)) then ([], cache)
    else ([url], clean_url :: cache)

/-- The loop body applied to the record urldissect yields for the line
(the record the middleware would pass along when filtering succeeds). -/
def filterStepOnDissected (url : String) (cache : List String) :
    Option (List String × List String) :=
  match urldissect url true with
  | .ok (some o) => some (filterNoDissectStep url o cache)
  | _ => none

/-- The claimed structural shape of a line: the line up to the located
boundary, with the claimed digit normalization applied to the remainder. -/
def claimShapeOnDissected (url : String) : Option String :=
  match urldissect url true with
  | .ok (some o) =>
    let separator := pyFind url (pyOr o.path o.raw_query)
    some (pySliceTo url separator ++ claimSub (pySliceFrom url separator))
  | _ => none

/-! ### CLI framework (src/urify/cli/__init__.py) -/

/-- One queued option descriptor: the flag and the help text of an option
declaration (the add_argument payload the queue carries). -/
structure OptionDescriptor where
  flag : String
  help : String := ""
deriving DecidableEq, Repr

/-- The mutable registration state of a Cli instance: the queue of pending
option descriptors and the registered commands with their attached
options. -/
structure CliState where
  pendingOptions : List OptionDescriptor
  registeredCommands : List (String × List OptionDescriptor)
deriving DecidableEq, Repr

/-- Cli.option: the returned decorator inserts the descriptor at the front
of the pending queue. -/
def cliOption (d : OptionDescriptor) (s : CliState) : CliState :=
  { s with pendingOptions := d :: s.pendingOptions }

/-- Cli.command: the returned decorator attaches every pending descriptor
to the new sub-parser front to back, clears the queue, and registers the
command. -/
def cliCommand (name : String) (s : CliState) : CliState :=
  { pendingOptions := []
    registeredCommands := s.registeredCommands ++ [(name, s.pendingOptions)] }

/-- A decorated command block: the option decorators, listed top to bottom
in source order, apply bottom up (innermost first), then the command
decorator applies last. -/
def registerCommandBlock (name : String) (decls : List OptionDescriptor)
    (s : CliState) : CliState :=
  cliCommand name (decls.foldr cliOption s)

/-- Number of equals signs of a string (used to state when a decoded query
segment unpacks into exactly a key and a value). -/
def countEq (s : String) : Nat :=
  s.data.countP (fun x => decide (x = '='))

/-- The key-value pair a well-formed decoded segment denotes: the text
before the first equals sign and the text after it. -/
def segPair (seg : String) : QueryObject :=
  { key := String.mk ((unquote_plus seg).data.takeWhile (fun x => decide (x ≠ '=')))
    value := String.mk (((unquote_plus seg).data.dropWhile (fun x => decide (x ≠ '='))).drop 1) }

/-! ### Helper lemmas -/

theorem splitNetlocChars_error_shape (l : List Char) (e : PyErr)
    (h : splitNetlocChars l = .error e) : e = .valueError "Invalid IPv6 URL" := by
  unfold splitNetlocChars at h
  split at h
  · split at h
    · dsimp only at h
      split at h
      · exact (Except.error.inj h).symm
      · exact absurd h (by simp)
    · exact absurd h (by simp)
  · exact absurd h (by simp)

theorem pyUrlparse_error_shape (u : String) (e : PyErr)
    (h : pyUrlparse u = .error e) : e = .valueError "Invalid IPv6 URL" := by
  unfold pyUrlparse at h
  dsimp only at h
  split at h
  case h_1 e2 heq =>
    injection h with h2
    subst h2
    exact splitNetlocChars_error_shape _ _ heq
  case h_2 => exact absurd h (by simp)

theorem pyPortVal_error_shape (r : Option String) (e : PyErr)
    (h : pyPortVal r = .error e) : ∃ m, e = .valueError m := by
  unfold pyPortVal at h
  split at h
  · exact absurd h (by simp)
  · split at h
    · dsimp only at h
      split at h
      · exact absurd h (by simp)
      · exact ⟨_, (Except.error.inj h).symm⟩
    · exact ⟨_, (Except.error.inj h).symm⟩

theorem kvify_error_shape (l : List String) (e : PyErr)
    (h : kvify l = .error e) : ∃ m, e = .typeError m := by
  unfold kvify at h
  split at h
  · exact absurd h (by simp)
  · exact ⟨_, (Except.error.inj h).symm⟩

theorem mapME_error_shape (f : α → Except PyErr β) (l : List α) (e : PyErr)
    (h : mapME f l = .error e) : ∃ a ∈ l, f a = .error e := by
  induction l with
  | nil => exact absurd h (by simp [mapME])
  | cons a as ih =>
    unfold mapME at h
    cases hf : f a with
    | error e2 =>
      rw [hf] at h
      exact ⟨a, by simp, by rw [hf, Except.error.inj h]⟩
    | ok b =>
      rw [hf] at h
      cases hm : mapME f as with
      | error e2 =>
        rw [hm] at h
        obtain ⟨x, hx, hfx⟩ := ih (by rw [hm, Except.error.inj h])
        exact ⟨x, by simp [hx], hfx⟩
      | ok bs => rw [hm] at h; exact absurd h (by simp)

theorem querydissect_error_shape (q : String) (e : PyErr)
    (h : querydissect q = .error e) : ∃ m, e = .typeError m := by
  unfold querydissect at h
  split at h
  · exact absurd h (by simp)
  · obtain ⟨a, _, hfa⟩ := mapME_error_shape _ _ _ h
    exact kvify_error_shape _ _ hfa

theorem buildUrlObject_classify (parsed : PyParsed) (scheme path : String)
    (extracted : ExtractResult) :
    (∃ o, buildUrlObject parsed scheme path extracted = .ok (some o)) ∨
    (∃ m, buildUrlObject parsed scheme path extracted = .error (.typeError m)) ∨
    (∃ m, buildUrlObject parsed scheme path extracted = .error (.valueError m)) := by
  unfold buildUrlObject
  cases hpt : pyPortVal (rawPortOf parsed.netloc) with
  | error e =>
    obtain ⟨m, rfl⟩ := pyPortVal_error_shape _ _ hpt
    exact .inr (.inr ⟨_, rfl⟩)
  | ok pv =>
    cases hq : querydissect parsed.query with
    | error e =>
      obtain ⟨m, rfl⟩ := querydissect_error_shape _ _ hq
      exact .inr (.inl ⟨_, rfl⟩)
    | ok q => exact .inl ⟨_, rfl⟩

set_option maxHeartbeats 1600000 in
theorem urldissect_classify (url : String) (silent : Bool) :
    (unparseableGate url = true ∧
      urldissect url silent = (if silent then .ok none else .error (.urlError url)))
  ∨ (unparseableGate url = false ∧
      ((∃ o, urldissect url silent = .ok (some o)) ∨
       (∃ m, urldissect url silent = .error (.typeError m)) ∨
       (∃ m, urldissect url silent = .error (.valueError m)))) := by
  unfold urldissect unparseableGate
  cases hp : pyUrlparse (if containsSubstr url "://" = true then url else "http://" ++ url) with
  | error e =>
    simp only [hp]
    obtain rfl := pyUrlparse_error_shape _ _ hp
    exact .inr ⟨by trivial, .inr (.inr ⟨_, by trivial⟩)⟩
  | ok parsed =>
    simp only [hp]
    by_cases hs : containsSubstr url "://" = true
    · simp only [if_pos hs]
      by_cases hn : parsed.netloc = ""
      · simp only [if_pos hn]
        split
        · refine .inl ⟨?_, ?_⟩ <;> trivial
        · exact .inr ⟨by trivial, buildUrlObject_classify _ _ _ _⟩
      · simp only [if_neg hn]
        split
        · refine .inl ⟨?_, ?_⟩ <;> trivial
        · exact .inr ⟨by trivial, buildUrlObject_classify _ _ _ _⟩
    · simp only [if_neg hs]
      by_cases hn : parsed.netloc = ""
      · simp only [if_pos hn]
        split
        · refine .inl ⟨?_, ?_⟩ <;> trivial
        · exact .inr ⟨by trivial, buildUrlObject_classify _ _ _ _⟩
      · simp only [if_neg hn]
        split
        · refine .inl ⟨?_, ?_⟩ <;> trivial
        · exact .inr ⟨by trivial, buildUrlObject_classify _ _ _ _⟩

theorem mapME_ok (f : α → Except PyErr β) (g : α → β) (l : List α)
    (h : ∀ a ∈ l, f a = .ok (g a)) : mapME f l = .ok (l.map g) := by
  induction l with
  | nil => rfl
  | cons a as ih =>
    simp only [mapME, h a (by simp), ih (fun x hx => h x (by simp [hx])), List.map]

theorem splitChar_no_sep (c : Char) (l : List Char) (h : ∀ x ∈ l, x ≠ c) :
    splitChar c l = [l] := by
  induction l with
  | nil => rfl
  | cons a as ih =>
    have ha : a ≠ c := h a (by simp)
    have ih2 := ih (fun x hx => h x (by simp [hx]))
    simp only [splitChar, if_neg ha, ih2]

theorem splitChar_one_sep (c : Char) (l : List Char)
    (h : l.countP (fun x => decide (x = c)) = 1) :
    splitChar c l = [l.takeWhile (fun x => decide (x ≠ c)),
                     (l.dropWhile (fun x => decide (x ≠ c))).drop 1] := by
  induction l with
  | nil => simp at h
  | cons a as ih =>
    by_cases ha : a = c
    · subst ha
      have hno : ∀ x ∈ as, x ≠ a := by
        simp [List.countP_cons] at h
        exact h
      simp [splitChar, splitChar_no_sep a as hno]
    · have h1 : as.countP (fun x => decide (x = c)) = 1 := by
        simpa [List.countP_cons, ha] using h
      simp [splitChar, ih h1, ha]

theorem dropWhile_head_false {p : Char → Bool} {l : List Char} {h : Char} {t : List Char}
    (hd : l.dropWhile p = h :: t) : p h = false := by
  induction l with
  | nil => simp [List.dropWhile] at hd
  | cons a as ih =>
    rw [List.dropWhile_cons] at hd
    split at hd
    · exact ih hd
    · next hpa =>
      obtain ⟨rfl, -⟩ := List.cons.inj hd
      simpa using hpa

theorem rstripDots_shape (c : Char) (cs : List Char) :
    rstripDots (c :: cs) = [] ∨ ∃ r, rstripDots (c :: cs) = c :: r := by
  unfold rstripDots
  cases hr : rstripDots cs with
  | nil =>
    by_cases hc : c = '.'
    · left; simp [hr, hc]
    · right; exact ⟨[], by simp [hr, hc]⟩
  | cons x xs => right; exact ⟨x :: xs, by simp [hr]⟩

theorem foldr_cliOption_pending (decls : List OptionDescriptor) (s : CliState) :
    decls.foldr cliOption s = ⟨decls ++ s.pendingOptions, s.registeredCommands⟩ := by
  induction decls with
  | nil => rfl
  | cons d ds ih => simp [List.foldr, ih, cliOption]

/-! ### Claim theorems -/

/-- Claim C1: urldissect stores the port as a string, and the claim says an
absent port is stored as the empty string.  The code evaluates
str(parsed.port) before the or-fallback, and str(None) is the non-empty
text None, so a URL without a port stores the string None instead of the
empty string: the port claim fails on the no-port half while the 8080 half
holds. -/
theorem c1_port_empty_string_bug :
    dissectPort "http://host:8080/" = some "8080" ∧
    dissectPort "http://host/" = some "None" ∧
    dissectPort "http://host/" ≠ some "" := by decide

/-- Claim C2 counterexample: querydissect does not split a decoded segment
on its first equals sign; it splits on every equals sign and unpacks the
pieces into a two-parameter lambda, so the segment a=b=c raises TypeError
instead of yielding key a and value b=c. -/
theorem c2_querydissect_first_equals_cex :
    querydissect "a=b=c" ≠ .ok [⟨"a", "b=c"⟩] ∧
    querydissect "a=b=c" = .error (.typeError "kvify takes 2 positional arguments") := by
  decide

/-- Claim C2 (amended): querydissect splits a non-empty input on the
ampersand, percent-decodes each segment treating a plus as a space, and
splits each decoded segment on every equals sign; when every decoded
segment contains exactly one equals sign the result is one QueryObject per
segment in order, keyed by the text before the equals sign with the text
after it as value; a segment with zero or several equals signs raises
TypeError; an empty input yields the empty sequence. -/
theorem c2_querydissect_amended (q : String) :
    querydissect "" = .ok [] ∧
    (q ≠ "" → (∀ seg ∈ pySplitStr '&' q, countEq (unquote_plus seg) = 1) →
      querydissect q = .ok ((pySplitStr '&' q).map segPair)) := by
  refine ⟨by decide, fun hne hall => ?_⟩
  unfold querydissect
  rw [if_neg hne]
  apply mapME_ok
  intro seg hseg
  have h1 := hall seg hseg
  unfold countEq at h1
  unfold pySplitStr
  rw [splitChar_one_sep '=' _ h1]
  simp [kvify, segPair]

/-- Claim C2 amended witness at a concrete two-pair query. -/
theorem c2_querydissect_amended_witness :
    querydissect "a=1&b=2" = .ok [⟨"a", "1"⟩, ⟨"b", "2"⟩] := by
  have h := (c2_querydissect_amended "a=1&b=2").2 (by decide) (by decide)
  exact h.trans (by decide)

/-- Claim C3: the filter command builds its per-line middleware as a
partial application of urlfilter with the keyword strict, but urlfilter
names its strictness parameter absolute; the keyword set therefore does
not bind, and every middleware call — the first stdin line included —
raises TypeError before any filtering result is produced. -/
theorem c3_filter_strict_keyword_typeerror :
    ("strict" ∈ filterMiddlewareKwargNames ∧ "strict" ∉ urlfilterParamNames ∧
      kwargsBindable urlfilterParamNames filterMiddlewareKwargNames = false) ∧
    ∀ (filters : UrlFilters) (strict : Bool) (url : String),
      filterMiddleware filters strict url =
        .error (.typeError "urlfilter got an unexpected keyword argument strict") := by
  refine ⟨by decide, fun filters strict url => ?_⟩
  have h : kwargsBindable urlfilterParamNames filterMiddlewareKwargNames = false := by decide
  simp [filterMiddleware, h]

/-- Claim C4 counterexample: the input http://example.com/?foo has an
explicit scheme, so the validity gate passes, yet urldissect neither
returns a populated UrlObject nor raises nothing: query decomposition
raises TypeError, refuting the claim that in every non-gate case a
populated record is returned without an error. -/
theorem c4_gate_cex :
    unparseableGate "http://example.com/?foo" = false ∧
    urldissect "http://example.com/?foo" true =
      .error (.typeError "kvify missing a required positional argument") := by decide

/-- Claim C4 (amended): urldissect returns absent (silent) or signals
UrlError carrying the original string (non-silent) exactly when the
decomposition of the host finds neither an IPv4 literal nor a recognized
suffix and the parsed scheme is empty (which holds in particular when the
input has no scheme separator); in every other case the outcome is never
absent and never UrlError, but it is a populated UrlObject only when the
later port and query steps do not raise their own ValueError or
TypeError. -/
theorem c4_gate_amended (url : String) (silent : Bool) :
    ((urldissect url silent = .ok none ∨ urldissect url silent = .error (.urlError url))
      ↔ unparseableGate url = true) ∧
    (unparseableGate url = true →
      urldissect url true = .ok none ∧ urldissect url false = .error (.urlError url)) := by
  constructor
  · constructor
    · intro h
      rcases urldissect_classify url silent with ⟨hg, _⟩ | ⟨_, hd⟩
      · exact hg
      · exfalso
        rcases hd with ⟨o, hx⟩ | ⟨m, hx⟩ | ⟨m, hx⟩ <;> rcases h with h | h <;> simp [h] at hx
    · intro hg
      rcases urldissect_classify url silent with ⟨_, hd⟩ | ⟨hg2, _⟩
      · cases silent with
        | false => right; simpa using hd
        | true => left; simpa using hd
      · simp [hg] at hg2
  · intro hg
    constructor
    · rcases urldissect_classify url true with ⟨_, hd⟩ | ⟨hg2, _⟩
      · simpa using hd
      · simp [hg] at hg2
    · rcases urldissect_classify url false with ⟨_, hd⟩ | ⟨hg2, _⟩
      · simpa using hd
      · simp [hg] at hg2

/-- Claim C4 amended witness: a bare unrecognized host takes the gate, the
silent outcome is absent and the non-silent outcome is UrlError carrying
the original string. -/
theorem c4_gate_amended_witness :
    unparseableGate "foobar" = true ∧
    urldissect "foobar" true = .ok none ∧
    urldissect "foobar" false = .error (.urlError "foobar") :=
  ⟨by decide, (c4_gate_amended "foobar" true).2 (by decide)⟩

/-- Claim C5: the worked deny-list strict scenario with extensions php and
domains example: the html page on the example domain passes (only the
domain flag is true), the php page on the example domain is rejected (both
flags true), and the php page on a different domain passes (only the
extension flag is true). -/
theorem c5_denylist_strict_scenario :
    urlfilter "https://www.example.com/index.html" phpDenyFilters true false =
      .ok (some (.url "https://www.example.com/index.html")) ∧
    urlfilter "https://www.example.com/index.php" phpDenyFilters true false = .ok none ∧
    urlfilter "https://www.different.com/index.php" phpDenyFilters true false =
      .ok (some (.url "https://www.different.com/index.php")) := by decide

/-- Claim C6: urlfilter dereferences the dissection result without a
check, so on every input whose dissection yields absent the call is an
AttributeError rather than an absent result. -/
theorem c6_urlfilter_unparseable_propagates (url : String) (filters : UrlFilters)
    (absolute return_obj : Bool) (h : urldissect url true = .ok none) :
    urlfilter url filters absolute return_obj =
      .error (.attributeError "NoneType object has no attribute scheme") ∧
    urlfilter url filters absolute return_obj ≠ .ok none := by
  unfold urlfilter
  rw [h]
  exact ⟨rfl, by simp⟩

/-- Claim C6 witness at a concrete unparseable input. -/
theorem c6_urlfilter_unparseable_witness :
    urldissect "foobar" true = .ok none ∧
    urlfilter "foobar" {} false false =
      .error (.attributeError "NoneType object has no attribute scheme") :=
  ⟨by decide, (c6_urlfilter_unparseable_propagates "foobar" {} false false (by decide)).1⟩

/-- Claim C7: a query segment without an equals sign crashes query
decomposition with TypeError, and neither urldissect nor urlfilter catches
it — the error propagates unchanged through both callers. -/
theorem c7_query_segment_crash :
    querydissect "foo" = .error (.typeError "kvify missing a required positional argument") ∧
    querydissect "a&b=2" = .error (.typeError "kvify missing a required positional argument") ∧
    urldissect "http://example.com/?foo" true =
      .error (.typeError "kvify missing a required positional argument") ∧
    urlfilter "http://example.com/?foo" {} false false =
      .error (.typeError "kvify missing a required positional argument") := by decide

/-- Claim C8 counterexample: two lines whose digit runs sit between a slash
and letters have the same shape under the normalization the claim
describes (every digit run after a slash or equals sign replaced), so the
claim says the second line is suppressed; the compiled pattern also
requires a trailing word boundary, so the code leaves both lines
unnormalized and prints the second line as well. -/
theorem c8_shape_dedup_cex :
    claimShapeOnDissected "http://example.com/12ab" = some "http://example.com/0ab" ∧
    claimShapeOnDissected "http://example.com/34ab" = some "http://example.com/0ab" ∧
    filterStepOnDissected "http://example.com/12ab" [] =
      some (["http://example.com/12ab"], ["http://example.com/12ab"]) ∧
    filterStepOnDissected "http://example.com/34ab" ["http://example.com/12ab"] =
      some (["http://example.com/34ab"],
            ["http://example.com/34ab", "http://example.com/12ab"]) := by decide

/-- Claim C8 (amended): without -dissect the filter loop deduplicates by
structural shape, where a digit run in the remainder is replaced by a zero
only when it immediately follows a slash or an equals sign AND ends at a
word boundary (a non-word character or the end of the line); runs followed
by a word character are kept verbatim, so such lines deduplicate exactly;
and the exact single-value fallback fires when the located boundary index
is zero (in particular when the line has neither path nor query), not when
the boundary is absent.  The three scenarios below exhibit each clause:
word-bounded runs collapse to one printed line, letter-trailed runs print
both lines, and a path-free line takes the exact-dedup fallback. -/
theorem c8_shape_dedup_amended :
    (filterStepOnDissected "http://example.com/12/x" [] =
      some (["http://example.com/12/x"], ["http://example.com/0/x"]) ∧
     filterStepOnDissected "http://example.com/34/x" ["http://example.com/0/x"] =
      some ([], ["http://example.com/0/x"])) ∧
    (filterStepOnDissected "http://example.com/12ab" [] =
      some (["http://example.com/12ab"], ["http://example.com/12ab"]) ∧
     filterStepOnDissected "http://example.com/34ab" ["http://example.com/12ab"] =
      some (["http://example.com/34ab"],
            ["http://example.com/34ab", "http://example.com/12ab"])) ∧
    (filterStepOnDissected "example.com" [] = some (["example.com"], ["example.com"]) ∧
     filterStepOnDissected "example.com" ["example.com"] =
      some ([], ["example.com"])) := by decide

/-- Claim C9: UrlFilters construction rewrites every supplied extensions
entry to carry exactly one leading dot (the normalized entry starts with a
dot and its stripped remainder cannot start with another), and both php
and dot-php normalize to the single stored dot-php value. -/
theorem c9_extensions_normalization (exts : List String) (e : String) :
    validateExtensions ["php", ".php"] = [".php"] ∧
    (e ∈ validateExtensions exts → leadingDots e = 1) := by
  refine ⟨by decide, fun he => ?_⟩
  unfold validateExtensions at he
  rw [List.mem_dedup] at he
  obtain ⟨x, -, rfl⟩ := List.mem_map.mp he
  unfold leadingDots normalizeExt stripDots
  cases hm : x.data.dropWhile (fun c => decide (c = '.')) with
  | nil => simp [hm, rstripDots]
  | cons h t =>
    have hh : (fun c => decide (c = '.')) h = false := dropWhile_head_false hm
    rcases rstripDots_shape h t with h0 | ⟨r, hr⟩
    · simp [hm, h0]
    · simp [hm, hr, List.takeWhile_cons, hh]

/-- Claim C9 witness: the general leading-dot property applied at a
concrete normalized entry. -/
theorem c9_extensions_normalization_witness :
    ".php" ∈ validateExtensions ["php"] ∧ leadingDots ".php" = 1 :=
  ⟨by decide, (c9_extensions_normalization ["php"] ".php").2 (by decide)⟩

/-- Claim C10: registering a command attaches the queued option
descriptors in the top-to-bottom source order of their declarations (each
declaration is inserted at the queue front and the decorators apply bottom
up, so flushing front to back restores declaration order, ahead of any
descriptors already queued), and clears the queue for the next command. -/
theorem c10_cli_option_order (name : String) (decls p : List OptionDescriptor)
    (cmds : List (String × List OptionDescriptor)) :
    registerCommandBlock name decls ⟨p, cmds⟩ = ⟨[], cmds ++ [(name, decls ++ p)]⟩ := by
  simp [registerCommandBlock, cliCommand, foldr_cliOption_pending]
